import Mathlib

/-!
Verification development for the mcp-server-microsoft365-filesearch
repository (Python).  The definitions below are a shallow embedding of the
functions in src/mcp_m365_filesearch: the drive crawler
(`crawl_drive_items`), the search-response parser (`parse_search_response`),
the download-and-extract cache (`download_file`, `_read_file_content`) and
the REGION environment configuration of the two entry points (main.py and
server.py).  Remote HTTP responses, the local cache directory and the
clock are passed explicitly; the document-reader libraries (llama-index,
python-docx, openpyxl) are modelled by the data they yield on the file's
bytes.
-/

/-! ## Python string model

Python `str` values are modelled as lists of characters, so that the string
operations used by the source (`lower`, `upper`, `endswith`, `in`,
`join`, `str(int)`) compute by kernel reduction.  All strings appearing in
the source are ASCII, where Python's `lower`/`upper` agree with
`Char.toLower`/`Char.toUpper`.
-/

abbrev PyStr := List Char

/-- Python `s.lower()`. -/
def pyLower (s : PyStr) : PyStr := s.map Char.toLower

/-- Python `s.upper()`. -/
def pyUpper (s : PyStr) : PyStr := s.map Char.toUpper

/-- Python `s.endswith(suffix)`. -/
def pyEndsWith (s suff : PyStr) : Bool := suff.isSuffixOf s

/-- Python `needle in haystack` (substring containment). -/
def pyContains (needle haystack : PyStr) : Bool :=
  (List.range (haystack.length + 1)).any (fun i => needle.isPrefixOf (haystack.drop i))

/-- Python `sep.join(parts)`. -/
def pyJoin (sep : PyStr) (parts : List PyStr) : PyStr :=
  (parts.intersperse sep).flatten

/-- Python `str(n)` for a non-negative int `n`. -/
def pyStrOfNat (n : Nat) : PyStr := (Nat.repr n).toList

/-- A JSON object whose values are opaque payload, as an association list;
used for the pass-through `createdBy.user` / `lastModifiedBy.user`
objects of Graph search hits. -/
abbrev JObj := List (PyStr × PyStr)

/-! ## Drive crawler (msgraph_util.crawl_drive_items)

The remote Graph drive is modelled as the tree of listing responses the
crawler can observe.  A folder item carries the chain of `children` pages
that the URL `/drives/{d}/items/{id}/children` (followed through
`@odata.nextLink`) would return for it: `none` is a page whose fetch
returns a non-200 status, `some items` a 200 page with its `value` array.
The chain ends where the last fetched page has no `@odata.nextLink`.
An item carries the fields the source reads: `name`, `id`, `webUrl`
(`item.get("webUrl")`) and `parentReference.driveId` (nested `get`s, hence
optional).  `other` is an item with neither a `"file"` nor a `"folder"`
facet, which the source skips.
-/

inductive GItem where
  | file (name : PyStr) (id : PyStr) (webUrl : Option PyStr) (driveId : Option PyStr)
  | folder (id : PyStr) (pages : List (Option (List GItem)))
  | other
deriving Repr

/-- The dict appended to `results` for each matching file (msgraph_util.py
lines 218-223). -/
structure DriveItem where
  name : PyStr
  id : PyStr
  webUrl : Option PyStr
  driveId : Option PyStr
deriving DecidableEq, Repr

/-- The filter on line 217 of msgraph_util.py:
`file_extension is None or item["name"].lower().endswith(file_extension.lower())`.
Note the filter string is used as the suffix as-is; no dot is prepended. -/
def extensionMatches (file_extension : Option PyStr) (name : PyStr) : Bool :=
  match file_extension with
  | none => true
  | some ext => pyEndsWith (pyLower name) (pyLower ext)

mutual
/-- The `while url:` pagination loop of `crawl_drive_items`: a failed page
fetch (`response.status_code != 200`) breaks the loop; a 200 page has its
items processed and the loop continues to the next page of the chain. -/
def crawlPages (file_extension : Option PyStr) : List (Option (List GItem)) → List DriveItem
  | [] => []
  | none :: _ => []
  | some items :: rest =>
      crawlItems file_extension items ++ crawlPages file_extension rest

/-- The `for item in data.get("value", [])` body of `crawl_drive_items`:
files passing the extension filter are appended; folders are crawled
recursively and their results extended onto the list; other items are
skipped. -/
def crawlItems (file_extension : Option PyStr) : List GItem → List DriveItem
  | [] => []
  | .file n i w d :: rest =>
      (if extensionMatches file_extension n then [⟨n, i, w, d⟩] else [])
        ++ crawlItems file_extension rest
  | .folder _ pages :: rest =>
      crawlPages file_extension pages ++ crawlItems file_extension rest
  | .other :: rest => crawlItems file_extension rest
end

/-- `crawl_drive_items(access_token, drive_id, parent_id, file_extension)`
(msgraph_util.py lines 202-233), with the remote drive presented as the
page chain of the listing that the start URL (root or `parent_id`
children) yields. -/
def crawl_drive_items (file_extension : Option PyStr)
    (rootPages : List (Option (List GItem))) : List DriveItem :=
  crawlPages file_extension rootPages

/-! ## REGION configuration (main.py lines 18-22, server.py lines 17-21)

`REGION = os.getenv("REGION", "NAM").upper()` followed by
`if REGION not in VALID_REGIONS: REGION = "NAM"`.  The two entry points
declare different `VALID_REGIONS` sets, reproduced verbatim below.
-/

/-- `VALID_REGIONS` of main.py (line 18). -/
def VALID_REGIONS_main : List PyStr :=
  ["NAM".toList, "EUR".toList, "APC".toList, "AUS".toList, "IND".toList, "CAN".toList]

/-- `VALID_REGIONS` of server.py (line 17); note the absence of CAN. -/
def VALID_REGIONS_server : List PyStr :=
  ["NAM".toList, "EUR".toList, "APC".toList, "AUS".toList, "IND".toList]

/-- The module-level REGION computation shared by both entry points,
parameterised by the entry point's `VALID_REGIONS` and the value of the
`REGION` environment variable (`none` = unset). -/
def computeREGION (valid : List PyStr) (envREGION : Option PyStr) : PyStr :=
  let r := pyUpper (envREGION.getD "NAM".toList)
  if valid.contains r then r else "NAM".toList

/-! ## Search-response parser (msgraph_util.parse_search_response)

The nested JSON of a Graph `/search/query` response is modelled with the
layers the parser walks: `value` → `hitsContainers` → `hits`, each hit
carrying `rank`, `summary` and a `resource`.  Keys read through `.get`
without a caller-visible default are `Option`s; a missing
`parentReference` behaves as the empty object (its `driveId` lookup gives
`none`), and the two-level `get("createdBy", {}).get("user", {})` chains
are modelled by the resulting user object directly.
-/

structure ParentReference where
  driveId : Option PyStr
deriving DecidableEq, Repr

structure Resource where
  name : Option PyStr
  webUrl : Option PyStr
  id : Option PyStr
  createdByUser : JObj
  createdDateTime : Option PyStr
  lastModifiedByUser : JObj
  lastModifiedDateTime : Option PyStr
  parentReference : ParentReference
deriving DecidableEq, Repr

structure SearchHit where
  rank : Option Nat
  summary : Option PyStr
  resource : Resource
deriving DecidableEq, Repr

structure HitsContainer where
  hits : List SearchHit
deriving DecidableEq, Repr

structure HitsWrapper where
  hitsContainers : List HitsContainer
deriving DecidableEq, Repr

structure SearchResponse where
  value : List HitsWrapper
deriving DecidableEq, Repr

/-- `classify_source(web_url)` (msgraph_util.py lines 92-96). -/
def classify_source (web_url : PyStr) : PyStr :=
  if pyContains "my.sharepoint.com/personal/".toList web_url
  then "OneDrive".toList else "SharePoint".toList

/-- One entry of the list built by `parse_search_response`
(msgraph_util.py lines 73-86). -/
structure SearchResult where
  name : PyStr
  url : Option PyStr
  summary : PyStr
  rank : Option Nat
  source : PyStr
  created_by : JObj
  created_date : Option PyStr
  last_modified_by : JObj
  last_modified_date : Option PyStr
  fileid : Option PyStr
  parent_reference : ParentReference
  drive_id : Option PyStr
deriving DecidableEq, Repr

/-- The `file_types` dict of main.py lines 34-40 (also server.py lines
58-64): the extension lists configured per `file_type`.  The FastAPI/MCP
`Literal` annotation restricts `file_type` to the five keys, so the
catch-all arm is unreachable in the program. -/
def file_types (file_type : PyStr) : Option (List PyStr) :=
  if file_type == "all".toList then none
  else if file_type == "document".toList then
    some ["docx".toList, "doc".toList, "txt".toList, "pdf".toList]
  else if file_type == "spreadsheet".toList then
    some ["xlsx".toList, "xls".toList]
  else if file_type == "presentation".toList then
    some ["pptx".toList]
  else if file_type == "image".toList then
    some ["jpg".toList, "png".toList]
  else none

/-- The filter on lines 70-72 of msgraph_util.py:
`file_name and (file_type == "all" or any(file_name.endswith(f".{ext}") for ext in file_extension))`.
The `none` arm of the inner match is unreachable from the program's
callers, which pass a list exactly when `file_type != "all"` (in Python,
iterating `None` would raise). -/
def hitPasses (file_type : PyStr) (file_extension : Option (List PyStr))
    (file_name : PyStr) : Bool :=
  !file_name.isEmpty &&
    (file_type == "all".toList ||
      (match file_extension with
       | some exts => exts.any (fun ext => pyEndsWith file_name ('.' :: ext))
       | none => false))

/-- The dict appended to `results` for each passing hit (msgraph_util.py
lines 73-86).  Python would raise a TypeError in `classify_source` if
`webUrl` were absent; Graph always supplies it, and the model reads it
through a `""` default. -/
def mkSearchResult (hit : SearchHit) : SearchResult :=
  let resource := hit.resource
  let file_name := resource.name.getD []
  { name := file_name
    url := resource.webUrl
    summary := hit.summary.getD []
    rank := hit.rank
    source := classify_source (resource.webUrl.getD [])
    created_by := resource.createdByUser
    created_date := resource.createdDateTime
    last_modified_by := resource.lastModifiedByUser
    last_modified_date := resource.lastModifiedDateTime
    fileid := resource.id
    parent_reference := resource.parentReference
    drive_id := resource.parentReference.driveId }

/-- `parse_search_response(search_results, file_type, file_extension)`
(msgraph_util.py lines 57-87): only the first `value` entry and the first
`hitsContainers` entry are read; passing hits are appended in order. -/
def parse_search_response (sr : SearchResponse) (file_type : PyStr)
    (file_extension : Option (List PyStr)) : List SearchResult :=
  match sr.value with
  | [] => []
  | hw :: _ =>
    match hw.hitsContainers with
    | [] => []
    | hc :: _ =>
      (hc.hits.filter
          (fun h => hitPasses file_type file_extension (h.resource.name.getD []))).map
        mkSearchResult

/-! ## Download-and-extract cache (msgraph_util.download_file, _read_file_content)

The per-item cache directory `.local/downloads/{driveId}/{itemId}` is
modelled as a list of files in creation order, which is also the order the
model's `os.listdir` reports.  Wall-clock time is an explicit `Nat` of
seconds; `time.time() - os.path.getmtime(p)` is truncated `Nat`
subtraction (a file stamped in the future has age `0`, which like
Python's negative float compares below the 24-hour bound).  The reader
libraries are modelled by the data they produce on the file's bytes, and
the remote Graph endpoints by a `Net` record of their responses.
-/

/-- One extracted document: the dict `{"text": doc.text, **doc.metadata}`
serialized by `_read_file_content` (or its `"source": "manual"` fallback
form), which round-trips unchanged through the JSON sidecar. -/
structure Doc where
  text : PyStr
  meta : JObj
deriving DecidableEq, Repr

/-- One worksheet as seen through openpyxl: its title and its rows of
cell values.  A cell is `none` for a Python-falsy value (None, 0, "", …),
which the source renders as `""`, and `some s` for a truthy value whose
`str()` is `s`. -/
structure Sheet where
  title : PyStr
  rows : List (List (Option PyStr))
deriving DecidableEq, Repr

/-- The reader-library view of a file's bytes: what each extraction
library yields when pointed at the file.  `none` throughout means the
library raises on this file. -/
structure RawData where
  llamaDocs : Option (List Doc)
  docxParas : Option (List PyStr)
  xlsxSheets : Option (List Sheet)
deriving DecidableEq, Repr

/-- A file of the item's cache directory: its name, its mtime (seconds),
the result of `json.load` on it (`none`: not valid JSON, the load raises)
and its reader-library view. -/
structure FsFile where
  name : PyStr
  mtime : Nat
  jsonDocs : Option (List Doc)
  rawData : RawData
deriving DecidableEq, Repr

/-- The item's cache directory, in creation (= listing) order. -/
abbrev Folder := List FsFile

def lookupFile (folder : Folder) (name : PyStr) : Option FsFile :=
  folder.find? (fun f => f.name == name)

/-- `os.remove` of the named file. -/
def removeFile (folder : Folder) (name : PyStr) : Folder :=
  folder.filter (fun f => !(f.name == name))

/-- `open(path, "w")`/`open(path, "wb")` semantics: overwrite an existing
file in place, otherwise create it at the end of the listing. -/
def writeFile (folder : Folder) (f : FsFile) : Folder :=
  if (lookupFile folder f.name).isSome then
    folder.map (fun g => if g.name == f.name then f else g)
  else folder ++ [f]

/-- Reader-library view of a freshly written JSON sidecar.  The behavior
of the reader libraries on a sidecar file is not determined by this
repository's code; the fixed choice below keeps the model total and
influences none of the theorems in this file. -/
def jsonSidecarRaw : RawData := ⟨none, none, none⟩

/-- The sentinel record `[{"text": "[No readable text found]", "source": "manual"}]`
(msgraph_util.py line 193). -/
def noReadableDoc : Doc :=
  ⟨"[No readable text found]".toList, [("source".toList, "manual".toList)]⟩

/-- The cache time-to-live: 24 hours of seconds (`24 * 3600`). -/
def CACHE_TTL : Nat := 24 * 3600

/-- Cell rendering on line 183: `str(cell) if cell else ""`. -/
def renderCell : Option PyStr → PyStr
  | none => []
  | some s => s

/-- Row rendering on lines 183-184: `" | ".join(row_text)`. -/
def renderRow (row : List (Option PyStr)) : PyStr :=
  pyJoin " | ".toList (row.map renderCell)

/-- The truncation hint of line 181:
`f"[... {limit} rows shown. Use offset={offset + limit} to continue ...]"`. -/
def continuationHint (offset limit : Nat) : PyStr :=
  "[... ".toList ++ pyStrOfNat limit ++ " rows shown. Use offset=".toList
    ++ pyStrOfNat (offset + limit) ++ " to continue ...]".toList

/-- The row loop of lines 177-184 over one sheet, with `i` the enumerate
counter: rows before `offset` are skipped, the first row at or past
`offset + limit` appends the hint and breaks, rows in between are
rendered. -/
def rowChunks (offset limit : Nat) : Nat → List (List (Option PyStr)) → List PyStr
  | _, [] => []
  | i, row :: rest =>
    if i < offset then rowChunks offset limit (i + 1) rest
    else if offset + limit ≤ i then [continuationHint offset limit]
    else renderRow row :: rowChunks offset limit (i + 1) rest

/-- The per-sheet chunks of lines 173-184: the sheet header followed by
the windowed rows. -/
def sheetChunks (offset limit : Nat) (sheet : Sheet) : List PyStr :=
  ("--- Sheet: ".toList ++ sheet.title ++ " ---".toList)
    :: rowChunks offset limit 0 sheet.rows

/-- The `.xlsx` fallback text of lines 170-185: the chunks of every sheet
in order, joined with newlines. -/
def xlsxTextOutput (sheets : List Sheet) (offset limit : Nat) : PyStr :=
  pyJoin "\n".toList ((sheets.map (sheetChunks offset limit)).flatten)

/-- The `.docx` fallback text of lines 166-168:
`"\n".join(p.text for p in doc.paragraphs)`. -/
def docxTextOutput (paras : List PyStr) : PyStr := pyJoin "\n".toList paras

/-- Result of `_read_file_content`: the returned value (`none` is
Python's `None`, from the outer exception handler) and the cache
directory afterwards. -/
structure ReadResult where
  result : Option (List Doc)
  folder : Folder
deriving DecidableEq, Repr

/-- The manual-fallback tail of `_read_file_content` (lines 187-193): a
non-empty `text_output` is wrapped as a manual record and persisted to
the sidecar; an empty one yields the sentinel without touching the
sidecar. -/
def finishManual (now : Nat) (folder : Folder) (cachePath : PyStr)
    (textOutput : PyStr) : ReadResult :=
  if !textOutput.isEmpty then
    let result := [⟨textOutput, [("source".toList, "manual".toList)]⟩]
    ⟨some result, writeFile folder ⟨cachePath, now, some result, jsonSidecarRaw⟩⟩
  else
    ⟨some [noReadableDoc], folder⟩

/-- The format-specific fallback of lines 165-193, for the file `f` at
`filePath`: paragraph join for `.docx`, sheet/row join for `.xlsx`,
empty text otherwise; a raising reader library propagates to the outer
handler (`None`). -/
def fallbackExtract (now : Nat) (folder : Folder) (f : FsFile) (filePath : PyStr)
    (offset limit : Nat) : ReadResult :=
  let cachePath := filePath ++ ".cache.json".toList
  if pyEndsWith filePath ".docx".toList then
    match f.rawData.docxParas with
    | none => ⟨none, folder⟩
    | some paras => finishManual now folder cachePath (docxTextOutput paras)
  else if pyEndsWith filePath ".xlsx".toList then
    match f.rawData.xlsxSheets with
    | none => ⟨none, folder⟩
    | some sheets =>
        finishManual now folder cachePath (xlsxTextOutput sheets offset limit)
  else
    finishManual now folder cachePath []

/-- The extraction path of `_read_file_content` (lines 154-193), reached
when no fresh sidecar exists: try `SimpleDirectoryReader` first (a raise
is caught and falls through; a non-empty doc list is serialized to the
sidecar and returned), then the format-specific fallback.  On a missing
file the reader raises and falls through; the `.docx`/`.xlsx` loaders
then raise outside the inner handler, giving `None`, while other
extensions produce the empty text and hence the sentinel. -/
def extractContent (now : Nat) (folder : Folder) (filePath : PyStr)
    (offset limit : Nat) : ReadResult :=
  let cachePath := filePath ++ ".cache.json".toList
  match lookupFile folder filePath with
  | none =>
      if pyEndsWith filePath ".docx".toList || pyEndsWith filePath ".xlsx".toList then
        ⟨none, folder⟩
      else
        ⟨some [noReadableDoc], folder⟩
  | some f =>
    match f.rawData.llamaDocs with
    | some docs =>
        if !docs.isEmpty then
          ⟨some docs, writeFile folder ⟨cachePath, now, some docs, jsonSidecarRaw⟩⟩
        else fallbackExtract now folder f filePath offset limit
    | none => fallbackExtract now folder f filePath offset limit

/-- `_read_file_content(file_path, offset, limit)` (msgraph_util.py lines
144-197): a sidecar younger than 24 hours is returned as loaded
(a malformed sidecar raises into the outer handler, giving `None`);
otherwise the content is extracted afresh. -/
def _read_file_content (now : Nat) (folder : Folder) (filePath : PyStr)
    (offset limit : Nat) : ReadResult :=
  let cachePath := filePath ++ ".cache.json".toList
  match lookupFile folder cachePath with
  | some cf =>
      if now - cf.mtime < CACHE_TTL then
        ⟨cf.jsonDocs, folder⟩
      else
        extractContent now folder filePath offset limit
  | none => extractContent now folder filePath offset limit

/-- A network action of `download_file`: the item-metadata GET, or the
GET of the file content (`.../content`). -/
inductive NetOp where
  | metadataFetch
  | contentDownload
deriving DecidableEq, Repr

/-- The remote Graph responses visible to one `download_file` call: the
status of the item-metadata request and the `name` field of its JSON
(`none`: key absent, the `.get` default `f"{item_id}.bin"` applies), and
the status and bytes (as their reader-library view) of the content
request. -/
structure Net where
  metadataStatus : Nat
  metadataName : Option PyStr
  contentStatus : Nat
  contentData : RawData
deriving DecidableEq, Repr

/-- Result of `download_file`: the returned value (`None` on failure),
the cache directory afterwards, and the network requests performed. -/
structure DownloadResult where
  result : Option (List Doc)
  folder : Folder
  netOps : List NetOp
deriving DecidableEq, Repr

/-- Lines 127-139 of download_file: GET the content URL; on 200 stream
the bytes to `file_path` and read them, otherwise return `None`.  The
content GET itself is performed in both cases. -/
def downloadAndRead (net : Net) (now : Nat) (folder : Folder) (file_name : PyStr)
    (offset limit : Nat) : DownloadResult :=
  if net.contentStatus = 200 then
    let folder1 := writeFile folder ⟨file_name, now, none, net.contentData⟩
    let r := _read_file_content now folder1 file_name offset limit
    ⟨r.result, r.folder, [.contentDownload]⟩
  else
    ⟨none, folder, [.contentDownload]⟩

/-- `download_file(drive_id, item_id, access_token, offset, limit)`
(msgraph_util.py lines 98-139).  The metadata GET happens first; a
non-200 status returns `None` at once.  Otherwise the first listed file
of the item's cache directory, when one exists, is reused if younger
than 24 hours and deleted if not; reuse reads it through
`_read_file_content`, every other path downloads the content. -/
def download_file (net : Net) (now : Nat) (folder : Folder) (item_id : PyStr)
    (offset limit : Nat) : DownloadResult :=
  if net.metadataStatus = 200 then
    let file_name := net.metadataName.getD (item_id ++ ".bin".toList)
    match folder with
    | [] =>
        let d := downloadAndRead net now folder file_name offset limit
        ⟨d.result, d.folder, .metadataFetch :: d.netOps⟩
    | f0 :: _ =>
        if now - f0.mtime < CACHE_TTL then
          let r := _read_file_content now folder f0.name offset limit
          ⟨r.result, r.folder, [.metadataFetch]⟩
        else
          let d := downloadAndRead net now (removeFile folder f0.name)
                     file_name offset limit
          ⟨d.result, d.folder, .metadataFetch :: d.netOps⟩
  else
    ⟨none, folder, [.metadataFetch]⟩

/-- The spec's error model for `download_file`: success with documents,
the value `None`, or a raised `MetadataError`.  The source never defines
or raises a `MetadataError`, so the classification of its behavior (next
definition) never produces that constructor. -/
inductive SpecOutcome where
  | ok (docs : List Doc)
  | noneValue
  | metadataError
deriving DecidableEq, Repr

/-- The outcome of a `download_file` call, classified against the spec's
error model: the source returns a value in every case (`None` on
failure) and raises nothing. -/
def downloadOutcome (net : Net) (now : Nat) (folder : Folder) (item_id : PyStr)
    (offset limit : Nat) : SpecOutcome :=
  match (download_file net now folder item_id offset limit).result with
  | some docs => .ok docs
  | none => .noneValue

/-- Classification of one run of the extraction path on a present file:
either a document list that is both returned and persisted to the
sidecar, or a result returned without touching the sidecar (the sentinel,
or `None` from a raising reader).  The classification depends only on the
file's bytes, the file path and the pagination arguments - not on the
clock - which is what makes repeated extraction deterministic. -/
inductive ExtOutcome where
  | persisted (docs : List Doc)
  | transient (res : Option (List Doc))
deriving DecidableEq, Repr

/-- The outcome of the manual-fallback tail for a given `text_output`. -/
def manualOutcome (textOutput : PyStr) : ExtOutcome :=
  if !textOutput.isEmpty then
    .persisted [⟨textOutput, [("source".toList, "manual".toList)]⟩]
  else
    .transient (some [noReadableDoc])

/-- The outcome of the format-specific fallback. -/
def extFallbackOutcome (rd : RawData) (filePath : PyStr) (offset limit : Nat) :
    ExtOutcome :=
  if pyEndsWith filePath ".docx".toList then
    match rd.docxParas with
    | none => .transient none
    | some paras => manualOutcome (docxTextOutput paras)
  else if pyEndsWith filePath ".xlsx".toList then
    match rd.xlsxSheets with
    | none => .transient none
    | some sheets => manualOutcome (xlsxTextOutput sheets offset limit)
  else manualOutcome []

/-- The outcome of the whole extraction path on a present file. -/
def extOutcome (rd : RawData) (filePath : PyStr) (offset limit : Nat) : ExtOutcome :=
  match rd.llamaDocs with
  | some docs =>
      if !docs.isEmpty then .persisted docs
      else extFallbackOutcome rd filePath offset limit
  | none => extFallbackOutcome rd filePath offset limit

/-! ## Theorems -/

/-- Characterization of the row loop from an arbitrary enumerate counter
`i`: it emits exactly the rows with absolute index in
`[offset, offset + limit)`, followed by the continuation hint exactly
when a row at index `offset + limit` exists. -/
theorem rowChunks_eq (offset limit : Nat) :
    ∀ (rows : List (List (Option PyStr))) (i : Nat),
      rowChunks offset limit i rows =
        ((rows.drop (offset - i)).take ((offset + limit) - max i offset)).map renderRow
          ++ (if (offset + limit) - i < rows.length
              then [continuationHint offset limit] else []) := by
  intro rows
  induction rows with
  | nil => intro i; simp [rowChunks]
  | cons r rs ih =>
    intro i
    by_cases h1 : i < offset
    · rw [show rowChunks offset limit i (r :: rs)
            = rowChunks offset limit (i + 1) rs from by
          simp [rowChunks, h1]]
      rw [ih (i + 1)]
      rw [show offset - i = (offset - (i + 1)) + 1 from by omega,
          List.drop_succ_cons,
          Nat.max_eq_right (Nat.le_of_lt h1),
          Nat.max_eq_right (by omega : i + 1 ≤ offset),
          List.length_cons]
      simp only [show ((offset + limit) - i < rs.length + 1)
          ↔ ((offset + limit) - (i + 1) < rs.length) from by omega]
    · by_cases h2 : offset + limit ≤ i
      · rw [show rowChunks offset limit i (r :: rs)
              = [continuationHint offset limit] from by
            simp [rowChunks, h1, h2]]
        rw [Nat.max_eq_left (by omega : offset ≤ i),
            show (offset + limit) - i = 0 from by omega]
        simp [show (offset + limit) - i < (r :: rs).length from by
          simp [List.length_cons]; omega]
      · rw [show rowChunks offset limit i (r :: rs)
              = renderRow r :: rowChunks offset limit (i + 1) rs from by
            simp [rowChunks, h1, h2]]
        rw [ih (i + 1)]
        rw [show offset - i = 0 from by omega,
            show offset - (i + 1) = 0 from by omega,
            List.drop_zero, List.drop_zero,
            Nat.max_eq_left (by omega : offset ≤ i),
            Nat.max_eq_left (by omega : offset ≤ i + 1),
            show (offset + limit) - i = ((offset + limit) - (i + 1)) + 1 from by omega,
            List.take_succ_cons, List.map_cons, List.length_cons]
        simp only [add_lt_add_iff_right, List.cons_append]

/-- C6: for a spreadsheet reaching the `.xlsx` fallback, the text is
built sheet by sheet; per sheet, exactly the rows with index in
`[offset, offset + limit)` are rendered, and a continuation hint naming
the next offset `offset + limit` is appended exactly when the sheet has
rows beyond that window. -/
theorem c6_theorem (sheets : List Sheet) (offset limit : Nat) :
    xlsxTextOutput sheets offset limit =
      pyJoin "\n".toList
        ((sheets.map (fun s =>
          ("--- Sheet: ".toList ++ s.title ++ " ---".toList) ::
            (((s.rows.drop offset).take limit).map renderRow ++
              (if offset + limit < s.rows.length
               then [continuationHint offset limit] else [])))).flatten) := by
  unfold xlsxTextOutput
  congr 2
  apply List.map_congr_left
  intro s _
  rw [sheetChunks, rowChunks_eq offset limit s.rows 0]
  simp [Nat.zero_max, Nat.add_sub_cancel_left]

/-- C8 counterexample: the claim fails at the MCP entry point
(server.py), whose `VALID_REGIONS` omits CAN: with `REGION=CAN` the
computed region is NAM, not CAN. -/
theorem c8_counterexample :
    computeREGION VALID_REGIONS_server (some "CAN".toList) = "NAM".toList
      ∧ "NAM".toList ≠ "CAN".toList := by
  constructor
  · decide
  · decide

/-- C8 (amended): in main.py a case-insensitive match against
NAM/EUR/APC/AUS/IND/CAN is used uppercased and anything else (or an
unset variable) defaults to NAM; in server.py the valid set is only
NAM/EUR/APC/AUS/IND - in particular REGION=CAN falls back to NAM there. -/
theorem c8_theorem :
    (∀ s : PyStr, VALID_REGIONS_main.contains (pyUpper s) = true →
        computeREGION VALID_REGIONS_main (some s) = pyUpper s)
  ∧ (∀ s : PyStr, VALID_REGIONS_main.contains (pyUpper s) = false →
        computeREGION VALID_REGIONS_main (some s) = "NAM".toList)
  ∧ computeREGION VALID_REGIONS_main none = "NAM".toList
  ∧ (∀ s : PyStr, VALID_REGIONS_server.contains (pyUpper s) = true →
        computeREGION VALID_REGIONS_server (some s) = pyUpper s)
  ∧ (∀ s : PyStr, VALID_REGIONS_server.contains (pyUpper s) = false →
        computeREGION VALID_REGIONS_server (some s) = "NAM".toList)
  ∧ computeREGION VALID_REGIONS_server none = "NAM".toList
  ∧ computeREGION VALID_REGIONS_server (some "CAN".toList) = "NAM".toList := by
  refine ⟨?_, ?_, by decide, ?_, ?_, by decide, by decide⟩
  · intro s h
    have hm : pyUpper s ∈ VALID_REGIONS_main := by simpa using h
    simp [computeREGION, hm]
  · intro s h
    have hm : pyUpper s ∉ VALID_REGIONS_main := by simpa using h
    simp [computeREGION, hm]
  · intro s h
    have hm : pyUpper s ∈ VALID_REGIONS_server := by simpa using h
    simp [computeREGION, hm]
  · intro s h
    have hm : pyUpper s ∉ VALID_REGIONS_server := by simpa using h
    simp [computeREGION, hm]

/-- C8 witness: the amended theorem applied at concrete inputs - a
lowercase `can` is accepted (as CAN) by main.py and an invalid value
falls back to NAM there. -/
theorem c8_witness :
    computeREGION VALID_REGIONS_main (some "can".toList) = pyUpper "can".toList
      ∧ computeREGION VALID_REGIONS_main (some "mars".toList) = "NAM".toList :=
  ⟨c8_theorem.1 "can".toList (by decide),
   c8_theorem.2.1 "mars".toList (by decide)⟩

/-- C9: when the text-cache sidecar of a file exists and is younger than
24 hours and holds documents, `_read_file_content` returns exactly those
stored documents, whatever `offset` and `limit` the current call passes;
hence two calls within the window agree even with different offsets. -/
theorem c9_theorem (now : Nat) (folder : Folder) (filePath : PyStr) (cf : FsFile)
    (docs : List Doc)
    (hlook : lookupFile folder (filePath ++ ".cache.json".toList) = some cf)
    (hage : now - cf.mtime < CACHE_TTL) (hjson : cf.jsonDocs = some docs) :
    ∀ offset limit : Nat,
      _read_file_content now folder filePath offset limit = ⟨some docs, folder⟩ := by
  intro o l
  simp only [_read_file_content]
  rw [hlook]
  simp [hage, hjson]

/-- C9 witness: a concrete fresh sidecar is returned unchanged for two
different offset/limit pairs. -/
theorem c9_witness :
    _read_file_content 5
        [⟨"a.txt.cache.json".toList, 0, some [⟨"stored".toList, []⟩], jsonSidecarRaw⟩]
        "a.txt".toList 0 50
      = ⟨some [⟨"stored".toList, []⟩],
         [⟨"a.txt.cache.json".toList, 0, some [⟨"stored".toList, []⟩], jsonSidecarRaw⟩]⟩
    ∧ _read_file_content 5
        [⟨"a.txt.cache.json".toList, 0, some [⟨"stored".toList, []⟩], jsonSidecarRaw⟩]
        "a.txt".toList 7 3
      = ⟨some [⟨"stored".toList, []⟩],
         [⟨"a.txt.cache.json".toList, 0, some [⟨"stored".toList, []⟩], jsonSidecarRaw⟩]⟩ :=
  ⟨c9_theorem 5
      [⟨"a.txt.cache.json".toList, 0, some [⟨"stored".toList, []⟩], jsonSidecarRaw⟩]
      "a.txt".toList
      ⟨"a.txt.cache.json".toList, 0, some [⟨"stored".toList, []⟩], jsonSidecarRaw⟩
      [⟨"stored".toList, []⟩] (by decide) (by decide) (by decide) 0 50,
   c9_theorem 5
      [⟨"a.txt.cache.json".toList, 0, some [⟨"stored".toList, []⟩], jsonSidecarRaw⟩]
      "a.txt".toList
      ⟨"a.txt.cache.json".toList, 0, some [⟨"stored".toList, []⟩], jsonSidecarRaw⟩
      [⟨"stored".toList, []⟩] (by decide) (by decide) (by decide) 7 3⟩

/-- C4 counterexample: on a non-200 metadata response the operation does
not fail with a MetadataError - there is none in the source - but
evaluates to Python's None. -/
theorem c4_counterexample :
    downloadOutcome ⟨404, none, 200, ⟨none, none, none⟩⟩ 0 [] "item9".toList 0 50
        = SpecOutcome.noneValue
      ∧ SpecOutcome.noneValue ≠ SpecOutcome.metadataError := by
  exact ⟨rfl, by decide⟩

/-- C4 (amended): when the item-metadata request returns a non-200
status, `download_file` returns None, leaves the cache directory
untouched (no cache lookup takes effect) and performs no content
download - its only network action is the metadata fetch. -/
theorem c4_theorem (net : Net) (now : Nat) (folder : Folder) (item_id : PyStr)
    (offset limit : Nat) (h : net.metadataStatus ≠ 200) :
    download_file net now folder item_id offset limit
      = ⟨none, folder, [NetOp.metadataFetch]⟩ := by
  unfold download_file
  rw [if_neg h]

/-- C4 witness: the amended theorem at a concrete 500-status metadata
response and a non-empty cache directory. -/
theorem c4_witness :
    download_file ⟨500, some "x.txt".toList, 200, ⟨none, none, none⟩⟩ 7
        [⟨"x.txt".toList, 1, none, ⟨none, none, none⟩⟩] "it".toList 0 50
      = ⟨none, [⟨"x.txt".toList, 1, none, ⟨none, none, none⟩⟩], [NetOp.metadataFetch]⟩ :=
  c4_theorem _ 7 _ "it".toList 0 50 (by decide)

/-- C5: a failed page fetch ends only that folder's page chain - the
crawl of a chain whose pages are good up to a failing one returns
exactly the items collected from the good prefix (no error is possible,
the crawl is a total function into lists) - and a folder item never
aborts its parent: the items after it are still processed. -/
theorem c5_theorem (file_extension : Option PyStr) (goodPages : List (List GItem))
    (rest : List (Option (List GItem))) :
    crawl_drive_items file_extension (goodPages.map some ++ none :: rest)
        = (goodPages.map (crawlItems file_extension)).flatten
      ∧ ∀ (fid : PyStr) (pages : List (Option (List GItem))) (restItems : List GItem),
          crawlItems file_extension (.folder fid pages :: restItems)
            = crawlPages file_extension pages ++ crawlItems file_extension restItems := by
  constructor
  · unfold crawl_drive_items
    induction goodPages with
    | nil => simp [crawlPages]
    | cons p ps ih => simp [crawlPages, ih]
  · intro fid pages restItems
    simp [crawlItems]

/-- C7: on a chain of N successful pages the crawl's result is the
concatenation of every page's contribution - all N pages are visited -
and the crawl is a total (hence terminating) function of the finite
remote tree. -/
theorem c7_theorem (file_extension : Option PyStr) (pagess : List (List GItem)) :
    crawl_drive_items file_extension (pagess.map some)
      = (pagess.map (crawlItems file_extension)).flatten := by
  unfold crawl_drive_items
  induction pagess with
  | nil => simp [crawlPages]
  | cons p ps ih => simp [crawlPages, ih]

mutual
/-- Every item a page chain contributes under filter `ext` has the
filter string as a case-insensitive suffix of its name. -/
theorem crawlPages_suffix (ext : PyStr) (pages : List (Option (List GItem))) :
    ∀ it ∈ crawlPages (some ext) pages,
      pyEndsWith (pyLower it.name) (pyLower ext) = true := by
  match pages with
  | [] => simp [crawlPages]
  | none :: rest => simp [crawlPages]
  | some items :: rest =>
    intro it hit
    simp only [crawlPages, List.mem_append] at hit
    rcases hit with h | h
    · exact crawlItems_suffix ext items it h
    · exact crawlPages_suffix ext rest it h

/-- Every item an item list contributes under filter `ext` has the
filter string as a case-insensitive suffix of its name. -/
theorem crawlItems_suffix (ext : PyStr) (items : List GItem) :
    ∀ it ∈ crawlItems (some ext) items,
      pyEndsWith (pyLower it.name) (pyLower ext) = true := by
  match items with
  | [] => simp [crawlItems]
  | .file n i w d :: rest =>
    intro it hit
    simp only [crawlItems, List.mem_append] at hit
    rcases hit with h | h
    · by_cases hm : extensionMatches (some ext) n = true
      · simp [hm] at h
        subst h
        simpa [extensionMatches] using hm
      · simp [hm] at h
    · exact crawlItems_suffix ext rest it h
  | .folder fid pages :: rest =>
    intro it hit
    simp only [crawlItems, List.mem_append] at hit
    rcases hit with h | h
    · exact crawlPages_suffix ext pages it h
    · exact crawlItems_suffix ext rest it h
  | .other :: rest =>
    intro it hit
    simp only [crawlItems] at hit
    exact crawlItems_suffix ext rest it hit
end

/-- C1 counterexample: with `extensionFilter=xlsx` the crawl returns an
item named `dataxlsx`, whose name does not end with `.xlsx` (the dot
followed by the filter) even case-insensitively - the source matches
the bare filter string, prepending no dot. -/
theorem c1_counterexample :
    crawl_drive_items (some "xlsx".toList)
        [some [GItem.file "dataxlsx".toList "f1".toList none none]]
      = [⟨"dataxlsx".toList, "f1".toList, none, none⟩]
    ∧ pyEndsWith (pyLower "dataxlsx".toList) ('.' :: "xlsx".toList) = false := by
  constructor
  · simp only [crawl_drive_items, crawlPages, crawlItems]
    decide
  · decide

/-- C1 (amended): for every crawl with a non-null extension filter X,
every returned DriveItem has a name that ends with X itself (no dot
prepended), compared case-insensitively; items failing that bare-suffix
match are never included. -/
theorem c1_theorem (ext : PyStr) (rootPages : List (Option (List GItem))) :
    ∀ it ∈ crawl_drive_items (some ext) rootPages,
      pyEndsWith (pyLower it.name) (pyLower ext) = true := by
  intro it hit
  exact crawlPages_suffix ext rootPages it hit

/-- C1 witness: the amended theorem applied to a crawl returning one
item with an uppercase extension. -/
theorem c1_witness :
    pyEndsWith (pyLower "Budget.XLSX".toList) (pyLower "xlsx".toList) = true :=
  c1_theorem "xlsx".toList [some [.file "Budget.XLSX".toList "f2".toList none none]]
    ⟨"Budget.XLSX".toList, "f2".toList, none, none⟩
    (by
      simp only [crawl_drive_items, crawlPages, crawlItems]
      decide)

/-- C10: for every search with a `file_type` other than `all`, every
returned file's name ends - case-sensitively - with a dot followed by
one of the extensions configured for that `file_type` (the parser uses
`file_name.endswith(f".{ext}")` with no case folding, unlike the
crawler). -/
theorem c10_theorem (sr : SearchResponse) (file_type : PyStr) (exts : List PyStr)
    (hft : file_type ≠ "all".toList) (hexts : file_types file_type = some exts) :
    ∀ r ∈ parse_search_response sr file_type (some exts),
      ∃ ext ∈ exts, pyEndsWith r.name ('.' :: ext) = true := by
  intro r hr
  rcases sr with ⟨value⟩
  rcases value with _ | ⟨hw, vrest⟩
  · simp [parse_search_response] at hr
  · rcases hw with ⟨hcs⟩
    rcases hcs with _ | ⟨hc, hcrest⟩
    · simp [parse_search_response] at hr
    · simp only [parse_search_response] at hr
      rw [List.mem_map] at hr
      obtain ⟨h, hmem, hmk⟩ := hr
      rw [List.mem_filter] at hmem
      obtain ⟨-, hpass⟩ := hmem
      unfold hitPasses at hpass
      rw [Bool.and_eq_true, Bool.or_eq_true] at hpass
      obtain ⟨hne, hall | hany⟩ := hpass
      · exact absurd (by simpa using hall) hft
      · rw [List.any_eq_true] at hany
        obtain ⟨ext, hext, hsuffix⟩ := hany
        refine ⟨ext, hext, ?_⟩
        rw [← hmk]
        simpa [mkSearchResult] using hsuffix

/-- C10 witness: a mocked response with one `budget.xlsx` hit and one
`REPORT.XLSX` hit under `file_type=spreadsheet`; the returned hit's name
carries a configured extension (and the decided membership check shows
`REPORT.XLSX` was filtered out). -/
theorem c10_witness :
    ∃ ext ∈ ["xlsx".toList, "xls".toList],
      pyEndsWith "budget.xlsx".toList ('.' :: ext) = true :=
  c10_theorem
    ⟨[⟨[⟨[⟨some 1, some "sum1".toList,
            ⟨some "budget.xlsx".toList, some "u1".toList, some "id1".toList,
             [], none, [], none, ⟨some "d1".toList⟩⟩⟩,
          ⟨some 2, some "sum2".toList,
            ⟨some "REPORT.XLSX".toList, some "u2".toList, some "id2".toList,
             [], none, [], none, ⟨some "d1".toList⟩⟩⟩]⟩]⟩]⟩
    "spreadsheet".toList ["xlsx".toList, "xls".toList]
    (by decide) (by decide)
    (mkSearchResult
      ⟨some 1, some "sum1".toList,
        ⟨some "budget.xlsx".toList, some "u1".toList, some "id1".toList,
         [], none, [], none, ⟨some "d1".toList⟩⟩⟩)
    (by decide)

/-- Helper: the reuse branch of `download_file` - successful metadata,
non-empty directory whose first listed file is younger than 24 hours. -/
theorem download_file_fresh_head (net : Net) (t : Nat) (f0 : FsFile) (rest : Folder)
    (item_id : PyStr) (offset limit : Nat)
    (hmeta : net.metadataStatus = 200) (hfresh : t - f0.mtime < CACHE_TTL) :
    download_file net t (f0 :: rest) item_id offset limit
      = ⟨(_read_file_content t (f0 :: rest) f0.name offset limit).result,
         (_read_file_content t (f0 :: rest) f0.name offset limit).folder,
         [NetOp.metadataFetch]⟩ := by
  simp [download_file, hmeta, hfresh]

/-- Helper: the delete-and-redownload branch of `download_file` -
successful metadata, non-empty directory whose first listed file is at
least 24 hours old. -/
theorem download_file_stale_head (net : Net) (t : Nat) (f0 : FsFile) (rest : Folder)
    (item_id : PyStr) (offset limit : Nat)
    (hmeta : net.metadataStatus = 200) (hstale : CACHE_TTL ≤ t - f0.mtime) :
    download_file net t (f0 :: rest) item_id offset limit
      = ⟨(downloadAndRead net t (removeFile (f0 :: rest) f0.name)
            (net.metadataName.getD (item_id ++ ".bin".toList)) offset limit).result,
         (downloadAndRead net t (removeFile (f0 :: rest) f0.name)
            (net.metadataName.getD (item_id ++ ".bin".toList)) offset limit).folder,
         NetOp.metadataFetch
           :: (downloadAndRead net t (removeFile (f0 :: rest) f0.name)
                 (net.metadataName.getD (item_id ++ ".bin".toList)) offset limit).netOps⟩ := by
  simp [download_file, hmeta, Nat.not_lt.mpr hstale]

/-- Helper: `downloadAndRead` always performs exactly the content GET. -/
theorem downloadAndRead_netOps (net : Net) (t : Nat) (folder : Folder)
    (file_name : PyStr) (offset limit : Nat) :
    (downloadAndRead net t folder file_name offset limit).netOps
      = [NetOp.contentDownload] := by
  unfold downloadAndRead
  split <;> rfl

/-- C3: with successful metadata and a file in the item's cache
directory (the first one its listing reports), a strictly-under-24-hours
age means the file is reused - the result is read from it and the only
network action is the metadata fetch - while an age of at least 24 hours
means that file is deleted and the content is re-downloaded (the content
GET is performed). -/
theorem c3_theorem (net : Net) (now : Nat) (f0 : FsFile) (rest : Folder)
    (item_id : PyStr) (offset limit : Nat) (hmeta : net.metadataStatus = 200) :
    (now - f0.mtime < CACHE_TTL →
        download_file net now (f0 :: rest) item_id offset limit
          = ⟨(_read_file_content now (f0 :: rest) f0.name offset limit).result,
             (_read_file_content now (f0 :: rest) f0.name offset limit).folder,
             [NetOp.metadataFetch]⟩)
  ∧ (CACHE_TTL ≤ now - f0.mtime →
        download_file net now (f0 :: rest) item_id offset limit
          = ⟨(downloadAndRead net now (removeFile (f0 :: rest) f0.name)
                (net.metadataName.getD (item_id ++ ".bin".toList)) offset limit).result,
             (downloadAndRead net now (removeFile (f0 :: rest) f0.name)
                (net.metadataName.getD (item_id ++ ".bin".toList)) offset limit).folder,
             NetOp.metadataFetch
               :: (downloadAndRead net now (removeFile (f0 :: rest) f0.name)
                     (net.metadataName.getD (item_id ++ ".bin".toList)) offset limit).netOps⟩
        ∧ NetOp.contentDownload
            ∈ (download_file net now (f0 :: rest) item_id offset limit).netOps) := by
  constructor
  · intro hfresh
    exact download_file_fresh_head net now f0 rest item_id offset limit hmeta hfresh
  · intro hstale
    refine ⟨download_file_stale_head net now f0 rest item_id offset limit hmeta hstale, ?_⟩
    rw [download_file_stale_head net now f0 rest item_id offset limit hmeta hstale]
    simp [downloadAndRead_netOps]

/-- C3 witness: the reuse branch at a concrete fresh file and the
redownload branch at a concrete stale file. -/
theorem c3_witness :
    (download_file ⟨200, some "a.txt".toList, 200, ⟨none, none, none⟩⟩ 100
        [⟨"a.txt".toList, 50, none, ⟨none, none, none⟩⟩] "it".toList 0 50
      = ⟨(_read_file_content 100 [⟨"a.txt".toList, 50, none, ⟨none, none, none⟩⟩]
            "a.txt".toList 0 50).result,
         (_read_file_content 100 [⟨"a.txt".toList, 50, none, ⟨none, none, none⟩⟩]
            "a.txt".toList 0 50).folder,
         [NetOp.metadataFetch]⟩)
    ∧ NetOp.contentDownload
        ∈ (download_file ⟨200, some "a.txt".toList, 200, ⟨none, none, none⟩⟩ 90000
            [⟨"a.txt".toList, 0, none, ⟨none, none, none⟩⟩] "it".toList 0 50).netOps :=
  ⟨(c3_theorem ⟨200, some "a.txt".toList, 200, ⟨none, none, none⟩⟩ 100
      ⟨"a.txt".toList, 50, none, ⟨none, none, none⟩⟩ [] "it".toList 0 50 rfl).1
      (by decide),
   ((c3_theorem ⟨200, some "a.txt".toList, 200, ⟨none, none, none⟩⟩ 90000
      ⟨"a.txt".toList, 0, none, ⟨none, none, none⟩⟩ [] "it".toList 0 50 rfl).2
      (by decide)).2⟩

/-- Helper: a list never equals itself with a non-empty suffix appended
(under `==`); the raw file's name therefore never collides with its own
sidecar name. -/
theorem self_beq_append (fp s : PyStr) (hs : s ≠ []) : (fp == fp ++ s) = false := by
  rw [beq_eq_false_iff_ne]
  intro h
  have hlen := congrArg List.length h
  rw [List.length_append] at hlen
  have hz : s.length = 0 := by omega
  exact hs (List.length_eq_zero.mp hz)

/-- Helper: the manual-fallback tail behaves as its outcome
classification describes. -/
theorem finishManual_eq (now : Nat) (folder : Folder) (cachePath textOutput : PyStr) :
    finishManual now folder cachePath textOutput =
      match manualOutcome textOutput with
      | .persisted ds =>
          ⟨some ds, writeFile folder ⟨cachePath, now, some ds, jsonSidecarRaw⟩⟩
      | .transient r => ⟨r, folder⟩ := by
  unfold finishManual manualOutcome
  by_cases h : textOutput.isEmpty <;> simp [h]

/-- Helper: the format-specific fallback behaves as its outcome
classification describes. -/
theorem fallbackExtract_eq (now : Nat) (folder : Folder) (f : FsFile)
    (filePath : PyStr) (offset limit : Nat) :
    fallbackExtract now folder f filePath offset limit =
      match extFallbackOutcome f.rawData filePath offset limit with
      | .persisted ds =>
          ⟨some ds,
           writeFile folder ⟨filePath ++ ".cache.json".toList, now, some ds, jsonSidecarRaw⟩⟩
      | .transient r => ⟨r, folder⟩ := by
  simp only [fallbackExtract, extFallbackOutcome]
  by_cases hdocx : pyEndsWith filePath ".docx".toList
  · simp only [hdocx, if_true]
    cases f.rawData.docxParas with
    | none => rfl
    | some paras => exact finishManual_eq now folder _ _
  · simp only [hdocx, Bool.false_eq_true, if_false]
    by_cases hxlsx : pyEndsWith filePath ".xlsx".toList
    · simp only [hxlsx, if_true]
      cases f.rawData.xlsxSheets with
      | none => rfl
      | some sheets => exact finishManual_eq now folder _ _
    · simp only [hxlsx, Bool.false_eq_true, if_false]
      exact finishManual_eq now folder _ _

/-- Helper: on a present file the extraction path behaves as its outcome
classification describes: a `persisted` outcome is returned and written
to the sidecar, a `transient` outcome is returned with the directory
untouched.  The outcome does not depend on the clock. -/
theorem extractContent_eq (now : Nat) (folder : Folder) (filePath : PyStr) (f : FsFile)
    (offset limit : Nat) (hlook : lookupFile folder filePath = some f) :
    extractContent now folder filePath offset limit =
      match extOutcome f.rawData filePath offset limit with
      | .persisted ds =>
          ⟨some ds,
           writeFile folder ⟨filePath ++ ".cache.json".toList, now, some ds, jsonSidecarRaw⟩⟩
      | .transient r => ⟨r, folder⟩ := by
  have hstep : extractContent now folder filePath offset limit
      = match f.rawData.llamaDocs with
        | some docs =>
            if !docs.isEmpty then
              ⟨some docs,
               writeFile folder
                 ⟨filePath ++ ".cache.json".toList, now, some docs, jsonSidecarRaw⟩⟩
            else fallbackExtract now folder f filePath offset limit
        | none => fallbackExtract now folder f filePath offset limit := by
    simp only [extractContent]
    rw [hlook]
  rw [hstep]
  simp only [extOutcome]
  cases hld : f.rawData.llamaDocs with
  | some docs =>
    by_cases hni : docs.isEmpty
    · simp only [hni, Bool.not_true, Bool.false_eq_true, if_false]
      exact fallbackExtract_eq now folder f filePath offset limit
    · simp only [Bool.not_eq_true] at hni
      simp only [hni, Bool.not_false, if_true]
  | none => exact fallbackExtract_eq now folder f filePath offset limit

/-- Helper: the first call of the C2 scenario - empty cache directory,
successful metadata and content - downloads and then reads the fresh
raw file. -/
theorem download_file_empty (net : Net) (t : Nat) (item_id : PyStr) (offset limit : Nat)
    (hmeta : net.metadataStatus = 200) (hcontent : net.contentStatus = 200) :
    download_file net t [] item_id offset limit
      = ⟨(_read_file_content t
            [⟨net.metadataName.getD (item_id ++ ".bin".toList), t, none, net.contentData⟩]
            (net.metadataName.getD (item_id ++ ".bin".toList)) offset limit).result,
         (_read_file_content t
            [⟨net.metadataName.getD (item_id ++ ".bin".toList), t, none, net.contentData⟩]
            (net.metadataName.getD (item_id ++ ".bin".toList)) offset limit).folder,
         [NetOp.metadataFetch, NetOp.contentDownload]⟩ := by
  simp [download_file, downloadAndRead, hmeta, hcontent, writeFile, lookupFile]

/-- C2 counterexample: two calls 100 seconds apart (well within 24h),
where the first reuses a nearly-expired cache entry.  At the second call
the raw file's age has crossed 24 hours, so the file is re-downloaded (a
second content GET happens) and the returned text differs from the first
call's - the claim fails on both counts under its stated hypothesis. -/
theorem c2_counterexample :
    86500 - 86400 < CACHE_TTL
    ∧ (download_file ⟨200, some "r.txt".toList, 200, ⟨some [⟨"new".toList, []⟩], none, none⟩⟩
        86400
        [⟨"r.txt".toList, 10, none, ⟨some [⟨"new".toList, []⟩], none, none⟩⟩,
         ⟨"r.txt.cache.json".toList, 10, some [⟨"old".toList, []⟩], jsonSidecarRaw⟩]
        "it".toList 0 50).result = some [⟨"old".toList, []⟩]
    ∧ NetOp.contentDownload ∈
        (download_file ⟨200, some "r.txt".toList, 200, ⟨some [⟨"new".toList, []⟩], none, none⟩⟩
          86500
          (download_file ⟨200, some "r.txt".toList, 200, ⟨some [⟨"new".toList, []⟩], none, none⟩⟩
            86400
            [⟨"r.txt".toList, 10, none, ⟨some [⟨"new".toList, []⟩], none, none⟩⟩,
             ⟨"r.txt.cache.json".toList, 10, some [⟨"old".toList, []⟩], jsonSidecarRaw⟩]
            "it".toList 0 50).folder
          "it".toList 0 50).netOps
    ∧ (download_file ⟨200, some "r.txt".toList, 200, ⟨some [⟨"new".toList, []⟩], none, none⟩⟩
          86500
          (download_file ⟨200, some "r.txt".toList, 200, ⟨some [⟨"new".toList, []⟩], none, none⟩⟩
            86400
            [⟨"r.txt".toList, 10, none, ⟨some [⟨"new".toList, []⟩], none, none⟩⟩,
             ⟨"r.txt.cache.json".toList, 10, some [⟨"old".toList, []⟩], jsonSidecarRaw⟩]
            "it".toList 0 50).folder
          "it".toList 0 50).result
        ≠ (download_file ⟨200, some "r.txt".toList, 200, ⟨some [⟨"new".toList, []⟩], none, none⟩⟩
            86400
            [⟨"r.txt".toList, 10, none, ⟨some [⟨"new".toList, []⟩], none, none⟩⟩,
             ⟨"r.txt.cache.json".toList, 10, some [⟨"old".toList, []⟩], jsonSidecarRaw⟩]
            "it".toList 0 50).result := by
  refine ⟨by decide, by decide, by decide, by decide⟩

/-- C2 (amended): when the first of the two calls finds an empty cache
directory for the item and both its remote requests succeed, a second
call less than 24 hours later returns text content identical to the
first call's result and performs no network download of the file
content (its only network action is the metadata fetch). -/
theorem c2_theorem (net : Net) (t1 t2 : Nat) (item_id : PyStr) (offset limit : Nat)
    (hmeta : net.metadataStatus = 200) (hcontent : net.contentStatus = 200)
    (hlt : t2 - t1 < CACHE_TTL) :
    (download_file net t2 (download_file net t1 [] item_id offset limit).folder
        item_id offset limit).result
      = (download_file net t1 [] item_id offset limit).result
    ∧ NetOp.contentDownload
        ∉ (download_file net t2 (download_file net t1 [] item_id offset limit).folder
            item_id offset limit).netOps := by
  obtain ⟨fn, hfn⟩ : ∃ fn, net.metadataName.getD (item_id ++ ".bin".toList) = fn := ⟨_, rfl⟩
  have h1 := download_file_empty net t1 item_id offset limit hmeta hcontent
  rw [hfn] at h1
  have hfne : ((fn : PyStr) == fn ++ ".cache.json".toList) = false :=
    self_beq_append fn _ (by decide)
  have hlookC : lookupFile [⟨fn, t1, none, net.contentData⟩]
      (fn ++ ".cache.json".toList) = none := by
    unfold lookupFile
    rw [List.find?_cons_of_neg _ (by simp [hfne])]
    rfl
  have hlookR : lookupFile [⟨fn, t1, none, net.contentData⟩] fn
      = some ⟨fn, t1, none, net.contentData⟩ := by
    simp [lookupFile, List.find?]
  have hrfc1 : _read_file_content t1 [⟨fn, t1, none, net.contentData⟩] fn offset limit
      = extractContent t1 [⟨fn, t1, none, net.contentData⟩] fn offset limit := by
    simp only [_read_file_content]
    rw [hlookC]
  have hext1 := extractContent_eq t1 [⟨fn, t1, none, net.contentData⟩] fn
      ⟨fn, t1, none, net.contentData⟩ offset limit hlookR
  have hext2 := extractContent_eq t2 [⟨fn, t1, none, net.contentData⟩] fn
      ⟨fn, t1, none, net.contentData⟩ offset limit hlookR
  cases hout : extOutcome (⟨fn, t1, none, net.contentData⟩ : FsFile).rawData fn offset limit with
  | persisted ds =>
    rw [hout] at hext1
    have hE1 : extractContent t1 [⟨fn, t1, none, net.contentData⟩] fn offset limit
        = ⟨some ds, writeFile [⟨fn, t1, none, net.contentData⟩]
            ⟨fn ++ ".cache.json".toList, t1, some ds, jsonSidecarRaw⟩⟩ := hext1
    have hwf : writeFile [⟨fn, t1, none, net.contentData⟩]
        ⟨fn ++ ".cache.json".toList, t1, some ds, jsonSidecarRaw⟩
        = [⟨fn, t1, none, net.contentData⟩,
           ⟨fn ++ ".cache.json".toList, t1, some ds, jsonSidecarRaw⟩] := by
      unfold writeFile
      dsimp only
      rw [hlookC]
      rfl
    rw [hwf] at hE1
    have hfold1 : (download_file net t1 [] item_id offset limit).folder
        = [⟨fn, t1, none, net.contentData⟩,
           ⟨fn ++ ".cache.json".toList, t1, some ds, jsonSidecarRaw⟩] := by
      rw [h1]
      dsimp only
      rw [hrfc1, hE1]
    have hres1 : (download_file net t1 [] item_id offset limit).result = some ds := by
      rw [h1]
      dsimp only
      rw [hrfc1, hE1]
    have h2 := download_file_fresh_head net t2 ⟨fn, t1, none, net.contentData⟩
        [⟨fn ++ ".cache.json".toList, t1, some ds, jsonSidecarRaw⟩] item_id offset limit
        hmeta (by exact hlt)
    have hlookC2 : lookupFile
        [⟨fn, t1, none, net.contentData⟩,
         ⟨fn ++ ".cache.json".toList, t1, some ds, jsonSidecarRaw⟩]
        (fn ++ ".cache.json".toList)
        = some ⟨fn ++ ".cache.json".toList, t1, some ds, jsonSidecarRaw⟩ := by
      unfold lookupFile
      rw [List.find?_cons_of_neg _ (by simp [hfne])]
      rw [List.find?_cons_of_pos _ (by simp)]
    have hrfc2 : _read_file_content t2
        [⟨fn, t1, none, net.contentData⟩,
         ⟨fn ++ ".cache.json".toList, t1, some ds, jsonSidecarRaw⟩] fn offset limit
        = ⟨some ds,
           [⟨fn, t1, none, net.contentData⟩,
            ⟨fn ++ ".cache.json".toList, t1, some ds, jsonSidecarRaw⟩]⟩ := by
      simp only [_read_file_content]
      rw [hlookC2]
      simp [hlt]
    rw [hfold1, h2, hres1]
    constructor
    · dsimp only
      rw [hrfc2]
    · dsimp only
      exact (by decide : NetOp.contentDownload ∉ [NetOp.metadataFetch])
  | transient rres =>
    rw [hout] at hext1 hext2
    have hE1 : extractContent t1 [⟨fn, t1, none, net.contentData⟩] fn offset limit
        = ⟨rres, [⟨fn, t1, none, net.contentData⟩]⟩ := hext1
    have hE2 : extractContent t2 [⟨fn, t1, none, net.contentData⟩] fn offset limit
        = ⟨rres, [⟨fn, t1, none, net.contentData⟩]⟩ := hext2
    have hfold1 : (download_file net t1 [] item_id offset limit).folder
        = [⟨fn, t1, none, net.contentData⟩] := by
      rw [h1]
      dsimp only
      rw [hrfc1, hE1]
    have hres1 : (download_file net t1 [] item_id offset limit).result = rres := by
      rw [h1]
      dsimp only
      rw [hrfc1, hE1]
    have h2 := download_file_fresh_head net t2 ⟨fn, t1, none, net.contentData⟩
        [] item_id offset limit hmeta (by exact hlt)
    have hrfc2 : _read_file_content t2 [⟨fn, t1, none, net.contentData⟩] fn offset limit
        = ⟨rres, [⟨fn, t1, none, net.contentData⟩]⟩ := by
      simp only [_read_file_content]
      rw [hlookC]
      exact hE2
    rw [hfold1, h2, hres1]
    constructor
    · dsimp only
      rw [hrfc2]
    · dsimp only
      exact (by decide : NetOp.contentDownload ∉ [NetOp.metadataFetch])

/-- C2 witness: the amended theorem at a concrete item whose first fetch
(at time 100, empty cache) downloads and extracts one document, and
whose second fetch at time 200 reuses it. -/
theorem c2_witness :
    (download_file ⟨200, some "r.txt".toList, 200, ⟨some [⟨"d".toList, []⟩], none, none⟩⟩
        200
        (download_file ⟨200, some "r.txt".toList, 200, ⟨some [⟨"d".toList, []⟩], none, none⟩⟩
          100 [] "it".toList 0 50).folder
        "it".toList 0 50).result
      = (download_file ⟨200, some "r.txt".toList, 200, ⟨some [⟨"d".toList, []⟩], none, none⟩⟩
          100 [] "it".toList 0 50).result
    ∧ NetOp.contentDownload
        ∉ (download_file ⟨200, some "r.txt".toList, 200, ⟨some [⟨"d".toList, []⟩], none, none⟩⟩
            200
            (download_file ⟨200, some "r.txt".toList, 200, ⟨some [⟨"d".toList, []⟩], none, none⟩⟩
              100 [] "it".toList 0 50).folder
            "it".toList 0 50).netOps :=
  c2_theorem ⟨200, some "r.txt".toList, 200, ⟨some [⟨"d".toList, []⟩], none, none⟩⟩
    100 200 "it".toList 0 50 rfl rfl (by decide)
